import Mathlib

/-!
Verification of the voice-interaction session controller (`useKuro` hook).

The controller owns the listening state, the interim-transcript buffer, the
silence timer, the finalization of commands on capture end, speech playback
and its cancellation.  Below, the hook's state and refs are embedded as one
record, and each event handler and operation of the source is translated to
a pure function on that record.  JavaScript timers are made explicit as a
list of pending timeout ids plus the id stored in `silenceTimerRef`; audio
elements are explicit records tracking whether they are playing and whether
their blob object URL has been revoked.
-/

/-- Model of JavaScript's `String.prototype.trim()`: remove leading and
trailing whitespace characters. -/
def jsTrim (s : String) : String :=
  String.mk ((s.data.dropWhile Char.isWhitespace).rdropWhile Char.isWhitespace)

/-- One `new Audio(url)` element created by `speak`, together with the blob
object URL it plays from.  `urlRevoked` records whether
`URL.revokeObjectURL` has been called for that URL. -/
structure AudioElem where
  id : Nat
  playing : Bool
  urlRevoked : Bool
  currentTime : Nat
  deriving Repr, DecidableEq

/-- The state of the `useKuro` controller: the five React state values, the
refs (`latestTextRef`, `silenceTimerRef`, `recognitionRef`, `audioRef`), the
set of armed timeouts, and the recognition engine's session status.
`pendingOnend` records that the engine has ended a capture session and its
`onend` notification is queued; `finalizeCount` counts how many times a
finalized command has been committed (published via `setTranscript`). -/
structure KuroState where
  isListening : Bool
  isSpeaking : Bool
  transcript : String
  rawTranscript : String
  error : Option String
  latestText : String
  silenceTimerRef : Option Nat
  pendingTimers : List Nat
  nextTimerId : Nat
  recAvailable : Bool
  capturing : Bool
  pendingOnend : Bool
  finalizeCount : Nat
  audios : List AudioElem
  audioRef : Option Nat
  nextAudioId : Nat
  deriving Repr, DecidableEq

/-- The state right after mounting, with recognition supported. -/
def initState : KuroState :=
  { isListening := false, isSpeaking := false, transcript := "", rawTranscript := "",
    error := none, latestText := "", silenceTimerRef := none, pendingTimers := [],
    nextTimerId := 0, recAvailable := true, capturing := false, pendingOnend := false,
    finalizeCount := 0, audios := [], audioRef := none, nextAudioId := 0 }

/-- `if (silenceTimerRef.current) clearTimeout(silenceTimerRef.current)`
acting on the pending-timer set: the timeout whose id the ref holds leaves
the pending set (a no-op if it already fired or if the ref is null). -/
def clearPending (r : Option Nat) (pt : List Nat) : List Nat :=
  match r with
  | some i => pt.erase i
  | none => pt

/-- The state effect of clearing the armed silence timer; the ref itself is
not nulled by the source. -/
def clearTimer (s : KuroState) : KuroState :=
  { s with pendingTimers := clearPending s.silenceTimerRef s.pendingTimers }

/-- `recognition.onresult`: trim the newest transcript, publish it as
`rawTranscript` (the `latestTextRef` sync effect follows it), clear the
armed silence timer and arm a fresh 2.5s one whose id goes into the ref. -/
def onresultH (s : KuroState) (text : String) : KuroState :=
  let s1 := { s with rawTranscript := jsTrim text, latestText := jsTrim text }
  let s2 := clearTimer s1
  { s2 with pendingTimers := s2.pendingTimers ++ [s2.nextTimerId],
            silenceTimerRef := some s2.nextTimerId,
            nextTimerId := s2.nextTimerId + 1 }

/-- `recognition.stop()`: if a capture session is active it terminates and a
capture-ended (`onend`) notification is queued; otherwise nothing happens. -/
def recStop (s : KuroState) : KuroState :=
  if s.capturing then { s with capturing := false, pendingOnend := true } else s

/-- A pending `setTimeout` callback fires: the timer leaves the pending set
and its body (`recognition.stop()`) runs.  Ids not in the pending set never
fire (they were cleared). -/
def timerFireH (s : KuroState) (i : Nat) : KuroState :=
  if i ∈ s.pendingTimers then recStop { s with pendingTimers := s.pendingTimers.erase i } else s

/-- `recognition.onend` (the rebound version reading `latestTextRef`):
listening stops, the armed timer is cleared, and the latest buffered text is
trimmed; a non-empty result is committed as the finalized `transcript` and
the raw buffer cleared, an empty one leaves everything else unchanged. -/
def onendH (s : KuroState) : KuroState :=
  let s1 := { s with isListening := false }
  let s2 := clearTimer s1
  let f := jsTrim s2.latestText
  if f = "" then s2
  else { s2 with transcript := f, rawTranscript := "", latestText := "",
                 finalizeCount := s2.finalizeCount + 1 }

/-- `recognition.onerror`: `aborted` is ignored entirely, `no-speech` only
stops listening, anything else sets the error field and stops listening. -/
def onerrorH (s : KuroState) (e : String) : KuroState :=
  if e = "aborted" then s
  else if e = "no-speech" then { s with isListening := false }
  else { s with error := some ("Error: " ++ e), isListening := false }

/-- Pause the audio element with the given id and rewind it to position 0
(`audio.pause(); audio.currentTime = 0`). -/
def pauseAudio (l : List AudioElem) (i : Nat) : List AudioElem :=
  l.map (fun a => if a.id = i then { a with playing := false, currentTime := 0 } else a)

/-- `cancelSpeech()`: if an audio element is referenced, pause and rewind it
and drop the reference (when the ref is already null it stays null, so the
ref is written unconditionally here); `speechSynthesis.cancel()` has no
modelled state; finally `setIsSpeaking(false)`.  The blob URL is not
revoked on this path. -/
def cancelSpeechH (s : KuroState) : KuroState :=
  { s with audios := match s.audioRef with
             | some i => pauseAudio s.audios i
             | none => s.audios,
           audioRef := none,
           isSpeaking := false }

/-- The synchronous head of `start()`:
`if (isSpeaking) cancelSpeech()`. -/
def startPre (s : KuroState) : KuroState :=
  if s.isSpeaking then cancelSpeechH s else s

/-- The state clearing at the top of `start()`'s try block: transcripts,
`latestTextRef` and the error field are reset. -/
def startClear (s : KuroState) : KuroState :=
  { s with transcript := "", rawTranscript := "", latestText := "", error := none }

/-- The remainder of `start()` assuming `recognition.start()` either
succeeds or throws the "already started" exception (which it does exactly
when a session is already active): in both cases listening is reported. -/
def startArm (s : KuroState) : KuroState :=
  if s.recAvailable then
    let s1 := startClear s
    if s1.capturing then { s1 with isListening := true }
    else { s1 with capturing := true, isListening := true }
  else s

/-- `start()` on the normal engine paths. -/
def startOp (s : KuroState) : KuroState := startArm (startPre s)

/-- The remainder of `start()` when `recognition.start()` throws any
exception other than "already started": the catch block surfaces a fixed
message and reports not listening. -/
def startArmErr (s : KuroState) : KuroState :=
  if s.recAvailable then
    let s1 := startClear s
    { s1 with error := some "Failed to start listening", isListening := false }
  else s

/-- `start()` when the engine throws a non-"already started" exception. -/
def startOpErr (s : KuroState) : KuroState := startArmErr (startPre s)

/-- `stop()`: if the recognition object exists, `recognition.stop()` runs
and `setIsListening(false)`; nothing else is touched. -/
def stopOp (s : KuroState) : KuroState :=
  if s.recAvailable then { recStop s with isListening := false } else s

/-- The synchronous head of `speak(text)`: `cancelSpeech()` then
`setIsSpeaking(true)`. -/
def speakSyncStep (s : KuroState) : KuroState :=
  { cancelSpeechH s with isSpeaking := true }

/-- The continuation of `speak` after the TTS fetch and the blob resolve:
a fresh object URL and `new Audio(url)` are created and stored in
`audioRef`.  Returns the new element's id (the call's local `audio`). -/
def speakFetchStep (s : KuroState) : KuroState × Nat :=
  ({ s with audios := s.audios ++
              [{ id := s.nextAudioId, playing := false, urlRevoked := false, currentTime := 0 }],
            audioRef := some s.nextAudioId,
            nextAudioId := s.nextAudioId + 1 }, s.nextAudioId)

/-- Start playback of the audio element with the given id. -/
def playAudio (l : List AudioElem) (i : Nat) : List AudioElem :=
  l.map (fun a => if a.id = i then { a with playing := true } else a)

/-- `audio.onloadedmetadata` for the call's own element `i`: the promise
resolves with the duration and `audio.play()` begins playback. -/
def speakMetaStep (s : KuroState) (i : Nat) (d : Nat) : KuroState × Nat :=
  ({ s with audios := playAudio s.audios i }, d)

/-- `audio.onended` for element `i`: the object URL is revoked, speaking
stops and the reference is dropped; the ended element is no longer playing. -/
def audioEndedStep (s : KuroState) (i : Nat) : KuroState :=
  { s with audios := s.audios.map
             (fun a => if a.id = i then { a with playing := false, urlRevoked := true } else a),
           isSpeaking := false, audioRef := none }

/-- `audio.onerror`: speaking stops, the reference is dropped and the
promise resolves with 0. -/
def audioDecodeErrStep (s : KuroState) : KuroState × Nat :=
  ({ s with isSpeaking := false, audioRef := none }, 0)

/-- How the environment resolves one `speak` call once its audio element
exists: metadata arrives with a duration, the decode fails, or neither
happens and the 5s fallback fires with the duration still unknown. -/
inductive AudioFirst where
  | loadedMeta (durMs : Nat)
  | decodeErr
  | fallbackTimeout
  deriving Repr, DecidableEq

/-- The environment's outcome for one `speak` call: the fetch rejects, the
response is not ok (the thrown error lands in the same catch), or the audio
phase is reached. -/
inductive TtsOutcome where
  | fetchReject
  | httpNotOk
  | audioPhase (f : AudioFirst)
  deriving Repr, DecidableEq

/-- One complete `speak(text)` call run to its resolution, as a function of
the environment outcome.  Returns the final state and the resolved value
(the duration in ms; both catch paths and the fallback resolve with 0). -/
def speakRun (s : KuroState) (o : TtsOutcome) : KuroState × Nat :=
  let s1 := speakSyncStep s
  match o with
  | .fetchReject => ({ s1 with isSpeaking := false }, 0)
  | .httpNotOk => ({ s1 with isSpeaking := false }, 0)
  | .audioPhase f =>
    let p := speakFetchStep s1
    match f with
    | .loadedMeta d => speakMetaStep p.1 p.2 d
    | .decodeErr => audioDecodeErrStep p.1
    | .fallbackTimeout => (p.1, 0)

/-- Events of the controller's event loop: the user operations, the
recognition engine's callbacks, timer expiry, and the asynchronous stages
of `speak`'s audio lifecycle. -/
inductive Ev where
  | start
  | startFailOther
  | stop
  | result (t : String)
  | timerFire (i : Nat)
  | ended
  | recError (e : String)
  | cancel
  | sSync
  | sFetch
  | sMeta (i d : Nat)
  | sDecodeErr
  | sEnded (i : Nat)
  deriving Repr, DecidableEq

/-- One event-loop step.  `result` only fires during an active capture
session, `ended` only when a capture-ended notification is queued, and a
recognition error also terminates the engine session. -/
def step (s : KuroState) : Ev → KuroState
  | .start => startOp s
  | .startFailOther => startOpErr s
  | .stop => stopOp s
  | .result t => if s.capturing then onresultH s t else s
  | .timerFire i => timerFireH s i
  | .ended => if s.pendingOnend then onendH { s with pendingOnend := false } else s
  | .recError e => recStop (onerrorH s e)
  | .cancel => cancelSpeechH s
  | .sSync => speakSyncStep s
  | .sFetch => (speakFetchStep s).1
  | .sMeta i d => (speakMetaStep s i d).1
  | .sDecodeErr => (audioDecodeErrStep s).1
  | .sEnded i => audioEndedStep s i

/-- Run a sequence of events from a state. -/
def run (s : KuroState) (evs : List Ev) : KuroState := evs.foldl step s

/-- A session: `start()` followed by a sequence of interim results. -/
def listenRun (ts : List String) : KuroState := run initState (Ev.start :: ts.map Ev.result)

/-- A silence period: every pending timeout fires, then the queued
capture-ended notification (if any) is delivered. -/
def silenceElapse (s : KuroState) : KuroState :=
  step (s.pendingTimers.foldl timerFireH s) Ev.ended

/-- The silence-timer invariant: the pending set is empty or the single
timer whose id the ref holds. -/
def TimerOk (s : KuroState) : Prop :=
  s.pendingTimers = [] ∨ ∃ i, s.pendingTimers = [i] ∧ s.silenceTimerRef = some i

/-- The audio-ownership invariant: every playing element is the one the
controller references, and all ids are below the allocation counter. -/
def AudioInv (s : KuroState) : Prop :=
  (∀ a ∈ s.audios, a.playing = true → s.audioRef = some a.id) ∧
  (∀ a ∈ s.audios, a.id < s.nextAudioId)

/-- Ids of the audio elements currently playing. -/
def playingIds (s : KuroState) : List Nat :=
  (s.audios.filter (fun a => a.playing)).map (fun a => a.id)

theorem dropWhile_head?_false {α : Type} (p : α → Bool) (l : List α) (a : α)
    (h : (l.dropWhile p).head? = some a) : p a = false := by
  have h3 := List.head?_dropWhile_not p l
  rw [h] at h3
  exact h3

theorem dropWhile_eq_self_of_head? {α : Type} (p : α → Bool) (l : List α)
    (h : ∀ a, l.head? = some a → p a = false) : l.dropWhile p = l := by
  cases l with
  | nil => rfl
  | cons b l2 => exact List.dropWhile_cons_of_neg (by simp [h b rfl])

theorem rdropWhile_of_head?_clean {α : Type} (p : α → Bool) (q : List α)
    (hq : ∀ b, q.head? = some b → p b = false) :
    ((q.rdropWhile p).dropWhile p).rdropWhile p = q.rdropWhile p := by
  have hsplit : ∃ u, q.rdropWhile p ++ u = q := by
    obtain ⟨u, hu⟩ := List.dropWhile_suffix (l := q.reverse) (p := p)
    refine ⟨u.reverse, ?_⟩
    have h2 := congrArg List.reverse hu
    rw [List.reverse_append, List.reverse_reverse] at h2
    simpa [List.rdropWhile] using h2
  obtain ⟨u, hu⟩ := hsplit
  have hd : (q.rdropWhile p).dropWhile p = q.rdropWhile p := by
    apply dropWhile_eq_self_of_head?
    intro b hb
    apply hq
    rw [← hu]
    cases hm : q.rdropWhile p with
    | nil => rw [hm] at hb; simp at hb
    | cons c m2 =>
      rw [hm] at hb
      simp only [List.head?_cons, Option.some.injEq] at hb
      rw [List.cons_append, List.head?_cons, hb]
  rw [hd, List.rdropWhile_idempotent]

theorem jsTrim_idem (s : String) : jsTrim (jsTrim s) = jsTrim s :=
  congrArg String.mk
    (rdropWhile_of_head?_clean Char.isWhitespace (s.data.dropWhile Char.isWhitespace)
      (fun b hb => dropWhile_head?_false Char.isWhitespace s.data b hb))

theorem onresultH_eq (s : KuroState) (t : String) :
    onresultH s t = { s with
      rawTranscript := jsTrim t,
      latestText := jsTrim t,
      pendingTimers := clearPending s.silenceTimerRef s.pendingTimers ++ [s.nextTimerId],
      silenceTimerRef := some s.nextTimerId,
      nextTimerId := s.nextTimerId + 1 } := rfl

theorem onendH_commit (s : KuroState) (h : jsTrim s.latestText ≠ "") :
    onendH s = { s with
      isListening := false,
      pendingTimers := clearPending s.silenceTimerRef s.pendingTimers,
      transcript := jsTrim s.latestText,
      rawTranscript := "",
      latestText := "",
      finalizeCount := s.finalizeCount + 1 } := by
  simp only [onendH, clearTimer]
  rw [if_neg h]

theorem onendH_empty (s : KuroState) (h : jsTrim s.latestText = "") :
    onendH s = { s with
      isListening := false,
      pendingTimers := clearPending s.silenceTimerRef s.pendingTimers } := by
  simp only [onendH, clearTimer]
  rw [if_pos h]

theorem onendH_commit_transcript (s : KuroState) (h : jsTrim s.latestText ≠ "") :
    (onendH s).transcript = jsTrim s.latestText := by
  rw [onendH_commit s h]

/-- C1: after a sequence of interim transcript events, the last of them
followed by the capture-ended notification, the committed finalized command
(the value published as `transcript`) is exactly the (trimmed) text of the
last interim event — never an earlier event's text and never a value
captured at callback-registration time, because `onend` reads the ref that
every `onresult` updates. -/
theorem finalized_command_is_last_interim (s : KuroState) (ts : List String) (t : String)
    (h : jsTrim t ≠ "") :
    (onendH (List.foldl onresultH s (ts ++ [t]))).transcript = jsTrim t := by
  have e1 : List.foldl onresultH s (ts ++ [t]) = onresultH (List.foldl onresultH s ts) t := by
    rw [List.foldl_append]
    rfl
  have hl : (onresultH (List.foldl onresultH s ts) t).latestText = jsTrim t := rfl
  have hcond : jsTrim ((onresultH (List.foldl onresultH s ts) t).latestText) ≠ "" := by
    rw [hl, jsTrim_idem]
    exact h
  rw [e1, onendH_commit_transcript _ hcond, hl, jsTrim_idem]

theorem finalized_command_is_last_interim_witness :
    (onendH (List.foldl onresultH initState
      (["turn", "turn the"] ++ ["turn the volume"]))).transcript = "turn the volume" :=
  (finalized_command_is_last_interim initState ["turn", "turn the"] "turn the volume"
    (by decide)).trans (by decide)

theorem pauseAudio_paused (l : List AudioElem) (i : Nat) :
    ∀ a ∈ pauseAudio l i, a.id = i → a.playing = false := by
  intro a ha hid
  rcases List.mem_map.1 ha with ⟨b, hb, rfl⟩
  by_cases h : b.id = i
  · rw [if_pos h]
  · rw [if_neg h] at hid ⊢
    exact absurd hid h

/-- C9: on every capture-ended callback, a raw buffer with non-whitespace
content is promoted to the finalized `transcript` and the buffer cleared,
while an empty (or whitespace-only) buffer just returns the controller to
idle with no command committed. -/
theorem capture_end_promotion (s : KuroState) :
    (jsTrim s.latestText ≠ "" →
      (onendH s).transcript = jsTrim s.latestText ∧ (onendH s).rawTranscript = "" ∧
      (onendH s).latestText = "" ∧ (onendH s).isListening = false ∧
      (onendH s).finalizeCount = s.finalizeCount + 1) ∧
    (jsTrim s.latestText = "" →
      (onendH s).isListening = false ∧ (onendH s).transcript = s.transcript ∧
      (onendH s).rawTranscript = s.rawTranscript ∧
      (onendH s).finalizeCount = s.finalizeCount ∧ (onendH s).error = s.error) := by
  constructor
  · intro h
    rw [onendH_commit s h]
    exact ⟨rfl, rfl, rfl, rfl, rfl⟩
  · intro h
    rw [onendH_empty s h]
    exact ⟨rfl, rfl, rfl, rfl, rfl⟩

theorem capture_end_promotion_witness :
    (onendH { initState with latestText := "hello" }).transcript = "hello" ∧
    (onendH { initState with latestText := "  " }).isListening = false :=
  ⟨((capture_end_promotion { initState with latestText := "hello" }).1
      (by decide)).1.trans (by decide),
   ((capture_end_promotion { initState with latestText := "  " }).2 (by decide)).1⟩

/-- C5: the recognition error handler ignores `aborted` entirely, absorbs
`no-speech` (listening stops, the user-visible error field is untouched, so
it stays null), and surfaces every other error as a non-null human-readable
string while resetting listening. -/
theorem recognition_error_taxonomy (s : KuroState) (e : String) :
    onerrorH s "aborted" = s ∧
    onerrorH s "no-speech" = { s with isListening := false } ∧
    (s.error = none → (onerrorH s "no-speech").error = none) ∧
    (e ≠ "aborted" → e ≠ "no-speech" →
      (onerrorH s e).error = some ("Error: " ++ e) ∧ (onerrorH s e).isListening = false) := by
  have h2 : onerrorH s "no-speech" = { s with isListening := false } := by
    unfold onerrorH
    rw [if_neg (by decide), if_pos rfl]
  refine ⟨?_, h2, ?_, ?_⟩
  · unfold onerrorH
    rw [if_pos rfl]
  · intro h
    rw [h2]
    exact h
  · intro h1 h2'
    unfold onerrorH
    rw [if_neg h1, if_neg h2']
    exact ⟨rfl, rfl⟩

theorem recognition_error_taxonomy_witness :
    (onerrorH initState "no-speech").error = none ∧
    (onerrorH initState "network").error = some ("Error: " ++ "network") :=
  ⟨(recognition_error_taxonomy initState "network").2.2.1 rfl,
   ((recognition_error_taxonomy initState "network").2.2.2 (by decide) (by decide)).1⟩

theorem startPre_isSpeaking (s : KuroState) : (startPre s).isSpeaking = false := by
  unfold startPre
  split
  · rfl
  · rename_i h
    simpa using h

theorem startPre_recAvailable (s : KuroState) : (startPre s).recAvailable = s.recAvailable := by
  unfold startPre
  split <;> rfl

theorem startPre_capturing (s : KuroState) : (startPre s).capturing = s.capturing := by
  unfold startPre
  split <;> rfl

theorem startArm_isSpeaking (s : KuroState) : (startArm s).isSpeaking = s.isSpeaking := by
  simp only [startArm, startClear]
  split
  · split <;> rfl
  · rfl

theorem startArm_capturing_true (s : KuroState) (hr : s.recAvailable = true) :
    (startArm s).capturing = true := by
  simp only [startArm, startClear]
  rw [if_pos hr]
  split
  · rename_i h
    exact h
  · rfl

theorem startArm_listening_error (s : KuroState) (hr : s.recAvailable = true) :
    (startArm s).isListening = true ∧ (startArm s).error = none := by
  simp only [startArm, startClear]
  rw [if_pos hr]
  split
  · exact ⟨rfl, rfl⟩
  · exact ⟨rfl, rfl⟩

/-- C10: when `recognition.start()` throws because a session is already
active, `start()` absorbs the exception: the error field stays unset (it
was just cleared) and `isListening` is reported true, so calling `start()`
twice in a row never surfaces an error; any other exception from the engine
sets the error field and leaves `isListening` false. -/
theorem start_absorbs_already_started (s : KuroState) :
    (s.recAvailable = true →
      (startOp s).error = none ∧ (startOp s).isListening = true) ∧
    (s.recAvailable = true →
      (startOp (startOp s)).error = none ∧ (startOp (startOp s)).isListening = true) ∧
    (s.recAvailable = true →
      (startOpErr s).error = some "Failed to start listening" ∧
      (startOpErr s).isListening = false) := by
  have hone : ∀ x : KuroState, x.recAvailable = true →
      (startOp x).error = none ∧ (startOp x).isListening = true := by
    intro x hx
    have hr : (startPre x).recAvailable = true := (startPre_recAvailable x).trans hx
    have h := startArm_listening_error (startPre x) hr
    exact ⟨h.2, h.1⟩
  refine ⟨hone s, ?_, ?_⟩
  · intro hx
    apply hone
    show (startArm (startPre s)).recAvailable = true
    have e1 : (startArm (startPre s)).recAvailable = (startPre s).recAvailable := by
      simp only [startArm, startClear]
      split
      · split <;> rfl
      · rfl
    rw [e1, startPre_recAvailable]
    exact hx
  · intro hx
    have hr : (startPre s).recAvailable = true := (startPre_recAvailable s).trans hx
    constructor
    · show (startArmErr (startPre s)).error = some "Failed to start listening"
      simp only [startArmErr, startClear]
      rw [if_pos hr]
    · show (startArmErr (startPre s)).isListening = false
      simp only [startArmErr, startClear]
      rw [if_pos hr]

theorem start_absorbs_already_started_witness :
    (startOp { initState with capturing := true }).error = none ∧
    (startOp { initState with capturing := true }).isListening = true ∧
    (startOpErr initState).isListening = false :=
  ⟨((start_absorbs_already_started { initState with capturing := true }).1 rfl).1,
   ((start_absorbs_already_started { initState with capturing := true }).1 rfl).2,
   ((start_absorbs_already_started initState).2.2 rfl).2⟩

/-- C4: `isListening` and `isSpeaking` cannot both be true after `start()`:
the synchronous head of `start()` cancels any active playback, so the state
in which the capture session is armed already has `isSpeaking = false` (and
the referenced audio paused), and `start()` never sets `isSpeaking`. -/
theorem start_cancels_speech_first (s : KuroState) (i : Nat) :
    (startOp s).isSpeaking = false ∧
    ((startPre s).isSpeaking = false ∧ startOp s = startArm (startPre s)) ∧
    ¬((startOp s).isListening = true ∧ (startOp s).isSpeaking = true) ∧
    (s.isSpeaking = true → s.audioRef = some i →
      ∀ a ∈ (startPre s).audios, a.id = i → a.playing = false) ∧
    (s.recAvailable = true → (startOp s).isListening = true) := by
  have hsp : (startOp s).isSpeaking = false :=
    (startArm_isSpeaking (startPre s)).trans (startPre_isSpeaking s)
  refine ⟨hsp, ⟨startPre_isSpeaking s, rfl⟩, ?_, ?_, ?_⟩
  · intro h
    rw [hsp] at h
    exact absurd h.2 (by decide)
  · intro h1 h2
    intro a ha hid
    have e1 : startPre s = cancelSpeechH s := by
      unfold startPre
      rw [if_pos h1]
    rw [e1] at ha
    have e2 : (cancelSpeechH s).audios = pauseAudio s.audios i := by
      simp only [cancelSpeechH]
      rw [h2]
    rw [e2] at ha
    exact pauseAudio_paused s.audios i a ha hid
  · intro hx
    have hr : (startPre s).recAvailable = true := (startPre_recAvailable s).trans hx
    exact (startArm_listening_error (startPre s) hr).1

def speakingExState : KuroState :=
  { initState with isSpeaking := true, audioRef := some 0,
                   audios := [{ id := 0, playing := true, urlRevoked := false, currentTime := 7 }] }

theorem start_cancels_speech_first_witness :
    (startOp speakingExState).isSpeaking = false ∧
    (startOp speakingExState).isListening = true ∧
    AudioElem.playing { id := 0, playing := false, urlRevoked := false, currentTime := 0 } = false :=
  ⟨(start_cancels_speech_first speakingExState 0).1,
   (start_cancels_speech_first speakingExState 0).2.2.2.2 rfl,
   (start_cancels_speech_first speakingExState 0).2.2.2.1 rfl rfl
     { id := 0, playing := false, urlRevoked := false, currentTime := 0 } (by decide) rfl⟩

theorem recStop_eq_pos (s : KuroState) (h : s.capturing = true) :
    recStop s = { s with capturing := false, pendingOnend := true } := by
  unfold recStop
  rw [if_pos h]

theorem recStop_eq_neg (s : KuroState) (h : s.capturing = false) :
    recStop s = s := by
  unfold recStop
  rw [h]
  simp

/-- C7: `stop()` is idempotent and a no-op while not listening; while a
capture session is active it ends the session immediately (without waiting
for silence) and the queued capture-ended notification flows through the
very same `onend` finalization as a silence-timer expiry: the two paths
produce identical states. -/
theorem stop_idempotent_same_path (s : KuroState) (i : Nat) :
    stopOp (stopOp s) = stopOp s ∧
    (s.isListening = false → s.capturing = false → stopOp s = s) ∧
    (s.recAvailable = true → s.capturing = true →
      (stopOp s).capturing = false ∧ (stopOp s).pendingOnend = true ∧
      (stopOp s).isListening = false) ∧
    (s.recAvailable = true → s.capturing = true → s.pendingTimers = [i] →
      s.silenceTimerRef = some i →
      step (stopOp s) Ev.ended = step (timerFireH s i) Ev.ended) := by
  obtain ⟨l, sp, tr, raw, er, lt, str, pt, nt, ra, cap, po, fc, au, ar, na⟩ := s
  refine ⟨?_, ?_, ?_, ?_⟩
  · cases ra <;> cases cap <;> simp [stopOp, recStop]
  · intro h1 h2
    subst h1
    subst h2
    cases ra <;> simp [stopOp, recStop]
  · intro h1 h2
    subst h1
    subst h2
    simp [stopOp, recStop]
  · intro h1 h2 h3 h4
    subst h1
    subst h2
    subst h3
    subst h4
    simp only [stopOp, recStop, timerFireH, step, if_pos]
    simp only [List.mem_singleton, if_true, List.erase_cons_head, List.erase_nil]
    by_cases hlt : jsTrim lt = ""
    · rw [onendH_empty _ hlt, onendH_empty _ hlt]
      simp [clearPending]
    · rw [onendH_commit _ hlt, onendH_commit _ hlt]
      simp [clearPending]

def listeningExState : KuroState :=
  { initState with isListening := true, capturing := true, pendingTimers := [5],
                   silenceTimerRef := some 5, latestText := "open spotify",
                   rawTranscript := "open spotify" }

theorem stop_idempotent_same_path_witness :
    stopOp initState = initState ∧
    (stopOp listeningExState).pendingOnend = true ∧
    step (stopOp listeningExState) Ev.ended = step (timerFireH listeningExState 5) Ev.ended :=
  ⟨(stop_idempotent_same_path initState 0).2.1 rfl rfl,
   ((stop_idempotent_same_path listeningExState 5).2.2.1 rfl rfl).2.1,
   (stop_idempotent_same_path listeningExState 5).2.2.2 rfl rfl rfl rfl⟩

theorem pauseAudio_urlmap (l : List AudioElem) (i : Nat) :
    (pauseAudio l i).map (fun a => a.urlRevoked) = l.map (fun a => a.urlRevoked) := by
  unfold pauseAudio
  rw [List.map_map]
  apply List.map_congr_left
  intro a _
  by_cases h : a.id = i <;> simp [h]

def playingAudioState : KuroState :=
  { initState with isSpeaking := true, audioRef := some 0,
                   audios := [{ id := 0, playing := true, urlRevoked := false, currentTime := 9 }] }

/-- C8 counterexample: on the cancellation exit path the audio resource is
NOT disposed the same way as on normal completion — `cancelSpeech()` pauses
the element and drops the reference but never calls `URL.revokeObjectURL`,
whereas the natural-completion handler (`audio.onended`) does revoke the
blob URL.  The two exit paths therefore differ on the same state. -/
theorem cancelSpeech_skips_url_disposal :
    ((cancelSpeechH playingAudioState).audios.map (fun a => a.urlRevoked)) = [false] ∧
    ((audioEndedStep playingAudioState 0).audios.map (fun a => a.urlRevoked)) = [true] ∧
    (cancelSpeechH playingAudioState).isSpeaking = false := by
  decide

/-- C8 (amended): `cancelSpeech()` is idempotent and safe to call when
nothing is playing (no state change at all when idle); with an active
playback it pauses the referenced element, drops the reference and resets
`isSpeaking` synchronously — but it leaves every blob object URL exactly as
it was: the URL is revoked only by the normal-completion handler. -/
theorem cancelSpeech_idempotent_pauses (s : KuroState) (i : Nat) :
    cancelSpeechH (cancelSpeechH s) = cancelSpeechH s ∧
    (s.audioRef = none → s.isSpeaking = false → cancelSpeechH s = s) ∧
    (cancelSpeechH s).isSpeaking = false ∧
    (cancelSpeechH s).audioRef = none ∧
    (s.audioRef = some i → ∀ a ∈ (cancelSpeechH s).audios, a.id = i → a.playing = false) ∧
    (cancelSpeechH s).audios.map (fun a => a.urlRevoked)
      = s.audios.map (fun a => a.urlRevoked) := by
  obtain ⟨l, sp, tr, raw, er, lt, str, pt, nt, ra, cap, po, fc, au, ar, na⟩ := s
  refine ⟨rfl, ?_, rfl, rfl, ?_, ?_⟩
  · intro h1 h2
    subst h1
    subst h2
    rfl
  · intro h
    subst h
    exact pauseAudio_paused au i
  · cases ar
    · rfl
    · exact pauseAudio_urlmap au _

theorem cancelSpeech_idempotent_pauses_witness :
    cancelSpeechH initState = initState ∧
    AudioElem.playing { id := 0, playing := false, urlRevoked := false, currentTime := 0 } = false ∧
    (cancelSpeechH playingAudioState).audios.map (fun a => a.urlRevoked)
      = playingAudioState.audios.map (fun a => a.urlRevoked) :=
  ⟨(cancelSpeech_idempotent_pauses initState 0).2.1 rfl rfl,
   (cancelSpeech_idempotent_pauses playingAudioState 0).2.2.2.2.1 rfl
     { id := 0, playing := false, urlRevoked := false, currentTime := 0 } (by decide) rfl,
   (cancelSpeech_idempotent_pauses playingAudioState 0).2.2.2.2.2⟩

/-- C6: `speak()` resolves on every environment outcome and never hangs: a
failed TTS fetch or a non-ok response resolves with 0 and returns
`isSpeaking` to false, an audio decode error does the same, and if the
metadata (duration) never arrives the 5-second fallback resolves with 0
instead of blocking; on success it resolves with the audio's duration. -/
theorem speak_always_resolves (s : KuroState) (d : Nat) :
    ((speakRun s TtsOutcome.fetchReject).2 = 0 ∧
      (speakRun s TtsOutcome.fetchReject).1.isSpeaking = false) ∧
    ((speakRun s TtsOutcome.httpNotOk).2 = 0 ∧
      (speakRun s TtsOutcome.httpNotOk).1.isSpeaking = false) ∧
    ((speakRun s (TtsOutcome.audioPhase AudioFirst.decodeErr)).2 = 0 ∧
      (speakRun s (TtsOutcome.audioPhase AudioFirst.decodeErr)).1.isSpeaking = false) ∧
    (speakRun s (TtsOutcome.audioPhase AudioFirst.fallbackTimeout)).2 = 0 ∧
    (speakRun s (TtsOutcome.audioPhase (AudioFirst.loadedMeta d))).2 = d :=
  ⟨⟨rfl, rfl⟩, ⟨rfl, rfl⟩, ⟨rfl, rfl⟩, rfl, rfl⟩

/-- One fully successful `speak` call (fetch ok, metadata arrives, playback
starts), run to its resolution. -/
def speakOnce (s : KuroState) (d : Nat) : KuroState :=
  (speakRun s (TtsOutcome.audioPhase (AudioFirst.loadedMeta d))).1

theorem cancel_audios_not_playing (s : KuroState) (hinv : AudioInv s) :
    ∀ a ∈ (cancelSpeechH s).audios, a.playing = false := by
  intro a ha
  cases har : s.audioRef with
  | none =>
    have e : (cancelSpeechH s).audios = s.audios := by
      simp only [cancelSpeechH]
      rw [har]
    rw [e] at ha
    cases hp : a.playing
    · rfl
    · have h2 := hinv.1 a ha hp
      rw [har] at h2
      exact absurd h2 (by simp)
  | some j =>
    have e : (cancelSpeechH s).audios = pauseAudio s.audios j := by
      simp only [cancelSpeechH]
      rw [har]
    rw [e] at ha
    rcases List.mem_map.1 ha with ⟨b, hb, rfl⟩
    by_cases h : b.id = j
    · rw [if_pos h]
    · rw [if_neg h]
      cases hp : b.playing
      · rfl
      · have h2 := hinv.1 b hb hp
        rw [har] at h2
        exact absurd (Option.some.inj h2).symm h

theorem cancel_audios_idmap (s : KuroState) :
    (cancelSpeechH s).audios.map (fun a => a.id) = s.audios.map (fun a => a.id) := by
  cases har : s.audioRef with
  | none =>
    have e : (cancelSpeechH s).audios = s.audios := by
      simp only [cancelSpeechH]
      rw [har]
    rw [e]
  | some j =>
    have e : (cancelSpeechH s).audios = pauseAudio s.audios j := by
      simp only [cancelSpeechH]
      rw [har]
    rw [e]
    unfold pauseAudio
    rw [List.map_map]
    apply List.map_congr_left
    intro a _
    by_cases h : a.id = j <;> simp [h]

theorem playAudio_no_match (l : List AudioElem) (n : Nat) (h : ∀ a ∈ l, a.id ≠ n) :
    playAudio l n = l := by
  unfold playAudio
  induction l with
  | nil => rfl
  | cons b t ih =>
    rw [List.map_cons, if_neg (h b (List.mem_cons_self b t)),
        ih (fun a ha => h a (List.mem_cons_of_mem b ha))]

theorem speakOnce_spec (s : KuroState) (d : Nat) (hinv : AudioInv s) :
    AudioInv (speakOnce s d) ∧ playingIds (speakOnce s d) = [s.nextAudioId] ∧
    (speakOnce s d).audioRef = some s.nextAudioId ∧
    (speakOnce s d).nextAudioId = s.nextAudioId + 1 ∧
    (speakOnce s d).audios.map (fun a => a.id)
      = s.audios.map (fun a => a.id) ++ [s.nextAudioId] := by
  have hold : ∀ a ∈ (cancelSpeechH s).audios, a.playing = false :=
    cancel_audios_not_playing s hinv
  have holdid : ∀ a ∈ (cancelSpeechH s).audios, a.id < s.nextAudioId := by
    intro a ha
    have hmem : a.id ∈ (cancelSpeechH s).audios.map (fun x => x.id) :=
      List.mem_map_of_mem _ ha
    rw [cancel_audios_idmap] at hmem
    rcases List.mem_map.1 hmem with ⟨b, hb, hee⟩
    rw [← hee]
    exact hinv.2 b hb
  have haud2 : (speakOnce s d).audios = (cancelSpeechH s).audios
      ++ [{ id := s.nextAudioId, playing := true, urlRevoked := false, currentTime := 0 }] := by
    show playAudio ((cancelSpeechH s).audios
      ++ [{ id := s.nextAudioId, playing := false, urlRevoked := false, currentTime := 0 }])
        s.nextAudioId = _
    unfold playAudio
    rw [List.map_append]
    congr 1
    · have h2 := playAudio_no_match (cancelSpeechH s).audios s.nextAudioId
        (fun a ha => Nat.ne_of_lt (holdid a ha))
      unfold playAudio at h2
      exact h2
    · simp
  have hc0 : (cancelSpeechH s).audios.filter (fun a => a.playing) = [] :=
    List.filter_eq_nil_iff.2 (fun a ha => by rw [hold a ha]; simp)
  refine ⟨⟨?_, ?_⟩, ?_, rfl, rfl, ?_⟩
  · intro a ha hp
    rw [haud2] at ha
    rcases List.mem_append.1 ha with h | h
    · rw [hold a h] at hp
      exact absurd hp (by simp)
    · rcases List.mem_singleton.1 h with rfl
      rfl
  · intro a ha
    rw [haud2] at ha
    rcases List.mem_append.1 ha with h | h
    · exact Nat.lt_succ_of_lt (holdid a h)
    · rcases List.mem_singleton.1 h with rfl
      exact Nat.lt_succ_self _
  · unfold playingIds
    rw [haud2, List.filter_append, hc0]
    simp
  · rw [haud2, List.map_append, cancel_audios_idmap]
    simp

/-- The interleaving of two `speak` calls in quick succession where the
second call's synchronous cancellation runs before the first call's fetch
has resolved: sync1, sync2, fetch1, metadata1, fetch2, metadata2. -/
def speakRaceState : KuroState :=
  let s1 := speakSyncStep (speakSyncStep initState)
  let p1 := speakFetchStep s1
  let s2 := (speakMetaStep p1.1 p1.2 100).1
  let p2 := speakFetchStep s2
  (speakMetaStep p2.1 p2.2 200).1

/-- C3 counterexample: two `speak` calls issued in quick succession — the
second before the first's playback has ended (here: before it even began,
while the first's fetch is still in flight) — end with BOTH calls resolved
and TWO playbacks active: the second call's `cancelSpeech()` ran while
`audioRef` was still null, so the first call's audio was never paused or
disposed before the second began playing. -/
theorem speak_quick_succession_two_playbacks :
    playingIds speakRaceState = [0, 1] ∧ speakRaceState.audioRef = some 1 := by
  decide

/-- C3 (amended): when the second `speak` call is issued after the first
call has resolved (its audio element exists and is playing) and before that
playback ended, the invariant holds: the second call's synchronous
cancellation pauses every audio element — in particular the first call's —
before the second request's audio is created and played, and after both
calls have resolved exactly one playback is active (the second call's); the
first call's element is still owned but paused.  If instead the second call
arrives while the first's request is still in flight, both playbacks can
end up active (see the counterexample). -/
theorem speak_sequential_single_playback (s : KuroState) (d1 d2 : Nat) (hinv : AudioInv s) :
    playingIds (speakOnce s d1) = [s.nextAudioId] ∧
    (∀ a ∈ (speakSyncStep (speakOnce s d1)).audios, a.playing = false) ∧
    playingIds (speakOnce (speakOnce s d1) d2) = [s.nextAudioId + 1] ∧
    s.nextAudioId ∈ (speakOnce (speakOnce s d1) d2).audios.map (fun a => a.id) ∧
    (∀ a ∈ (speakOnce (speakOnce s d1) d2).audios,
      a.id = s.nextAudioId → a.playing = false) := by
  obtain ⟨h1inv, h1play, h1ref, h1next, h1ids⟩ := speakOnce_spec s d1 hinv
  obtain ⟨h2inv, h2play, h2ref, h2next, h2ids⟩ := speakOnce_spec (speakOnce s d1) d2 h1inv
  refine ⟨h1play, ?_, ?_, ?_, ?_⟩
  · exact cancel_audios_not_playing (speakOnce s d1) h1inv
  · rw [h2play, h1next]
  · rw [h2ids, h1ids]
    simp
  · intro a ha hid
    cases hp : a.playing
    · rfl
    · have h3 := h2inv.1 a ha hp
      have h4 : (speakOnce s d1).nextAudioId = a.id := Option.some.inj (h2ref.symm.trans h3)
      rw [h1next, hid] at h4
      exact absurd h4 (Nat.succ_ne_self _)

theorem speak_sequential_single_playback_witness :
    playingIds (speakOnce (speakOnce initState 100) 200) = [1] :=
  (speak_sequential_single_playback initState 100 200
    ⟨fun a ha => absurd ha (List.not_mem_nil a),
     fun a ha => absurd ha (List.not_mem_nil a)⟩).2.2.1

theorem timerOk_of_same (s s' : KuroState) (h : TimerOk s)
    (hp : s'.pendingTimers = s.pendingTimers)
    (hr : s'.silenceTimerRef = s.silenceTimerRef) : TimerOk s' := by
  unfold TimerOk at h ⊢
  rw [hp, hr]
  exact h

/-- The operation leaves both the pending-timer set and the timer ref
untouched. -/
def PreservesTimers (f : KuroState → KuroState) : Prop :=
  ∀ s, (f s).pendingTimers = s.pendingTimers ∧ (f s).silenceTimerRef = s.silenceTimerRef

theorem preserves_cancelSpeechH : PreservesTimers cancelSpeechH :=
  fun _ => ⟨rfl, rfl⟩

theorem preserves_startPre : PreservesTimers startPre := by
  intro s
  unfold startPre
  split
  · exact ⟨rfl, rfl⟩
  · exact ⟨rfl, rfl⟩

theorem preserves_startArm : PreservesTimers startArm := by
  intro s
  simp only [startArm, startClear]
  split
  · split
    · exact ⟨rfl, rfl⟩
    · exact ⟨rfl, rfl⟩
  · exact ⟨rfl, rfl⟩

theorem preserves_startArmErr : PreservesTimers startArmErr := by
  intro s
  simp only [startArmErr, startClear]
  split
  · exact ⟨rfl, rfl⟩
  · exact ⟨rfl, rfl⟩

theorem preserves_recStop : PreservesTimers recStop := by
  intro s
  unfold recStop
  split
  · exact ⟨rfl, rfl⟩
  · exact ⟨rfl, rfl⟩

theorem preserves_stopOp : PreservesTimers stopOp := by
  intro s
  unfold stopOp
  split
  · exact ⟨(preserves_recStop s).1, (preserves_recStop s).2⟩
  · exact ⟨rfl, rfl⟩

theorem preserves_onerrorH (e : String) : PreservesTimers (fun s => onerrorH s e) := by
  intro s
  simp only [onerrorH]
  split
  · exact ⟨rfl, rfl⟩
  · split
    · exact ⟨rfl, rfl⟩
    · exact ⟨rfl, rfl⟩

theorem clearPending_nil (r : Option Nat) (pt : List Nat)
    (h : pt = [] ∨ ∃ i, pt = [i] ∧ r = some i) : clearPending r pt = [] := by
  rcases h with h | ⟨i, hp, hr⟩
  · subst h
    cases r
    · rfl
    · simp [clearPending]
  · subst hp
    subst hr
    simp [clearPending]

theorem timerOk_step (s : KuroState) (e : Ev) (h : TimerOk s) : TimerOk (step s e) := by
  cases e with
  | start =>
    exact timerOk_of_same s _ h
      ((preserves_startArm (startPre s)).1.trans (preserves_startPre s).1)
      ((preserves_startArm (startPre s)).2.trans (preserves_startPre s).2)
  | startFailOther =>
    exact timerOk_of_same s _ h
      ((preserves_startArmErr (startPre s)).1.trans (preserves_startPre s).1)
      ((preserves_startArmErr (startPre s)).2.trans (preserves_startPre s).2)
  | stop =>
    exact timerOk_of_same s _ h (preserves_stopOp s).1 (preserves_stopOp s).2
  | result t =>
    show TimerOk (if s.capturing = true then onresultH s t else s)
    by_cases hc : s.capturing = true
    · rw [if_pos hc]
      refine Or.inr ⟨s.nextTimerId, ?_, rfl⟩
      show clearPending s.silenceTimerRef s.pendingTimers ++ [s.nextTimerId] = [s.nextTimerId]
      rw [clearPending_nil s.silenceTimerRef s.pendingTimers h]
      rfl
    · rw [if_neg hc]
      exact h
  | timerFire i =>
    show TimerOk (timerFireH s i)
    unfold timerFireH
    by_cases hm : i ∈ s.pendingTimers
    · rw [if_pos hm]
      have hin : TimerOk { s with pendingTimers := s.pendingTimers.erase i } := by
        rcases h with h0 | ⟨i0, hp, _⟩
        · rw [h0] at hm
          exact absurd hm (List.not_mem_nil i)
        · left
          show s.pendingTimers.erase i = []
          rw [hp] at hm ⊢
          rw [List.mem_singleton.1 hm]
          simp
      exact timerOk_of_same _ _ hin (preserves_recStop _).1 (preserves_recStop _).2
    · rw [if_neg hm]
      exact h
  | ended =>
    show TimerOk (if s.pendingOnend = true then onendH { s with pendingOnend := false } else s)
    by_cases hp : s.pendingOnend = true
    · rw [if_pos hp]
      have hOk : s.pendingTimers = [] ∨ ∃ i, s.pendingTimers = [i] ∧ s.silenceTimerRef = some i := h
      by_cases hlt : jsTrim ({ s with pendingOnend := false } : KuroState).latestText = ""
      · rw [onendH_empty _ hlt]
        left
        exact clearPending_nil _ _ hOk
      · rw [onendH_commit _ hlt]
        left
        exact clearPending_nil _ _ hOk
    · rw [if_neg hp]
      exact h
  | recError e =>
    exact timerOk_of_same s _ h
      ((preserves_recStop (onerrorH s e)).1.trans (preserves_onerrorH e s).1)
      ((preserves_recStop (onerrorH s e)).2.trans (preserves_onerrorH e s).2)
  | cancel => exact timerOk_of_same s _ h rfl rfl
  | sSync => exact timerOk_of_same s _ h rfl rfl
  | sFetch => exact timerOk_of_same s _ h rfl rfl
  | sMeta i d => exact timerOk_of_same s _ h rfl rfl
  | sDecodeErr => exact timerOk_of_same s _ h rfl rfl
  | sEnded i => exact timerOk_of_same s _ h rfl rfl

theorem run_timerOk (evs : List Ev) : ∀ s : KuroState, TimerOk s → TimerOk (run s evs) := by
  induction evs with
  | nil => exact fun _ h => h
  | cons e t ih => exact fun s h => ih (step s e) (timerOk_step s e h)

theorem onendH_fc (s : KuroState) :
    (onendH s).finalizeCount
      = if jsTrim s.latestText = "" then s.finalizeCount else s.finalizeCount + 1 := by
  by_cases h : jsTrim s.latestText = ""
  · rw [onendH_empty s h, if_pos h]
  · rw [onendH_commit s h, if_neg h]

theorem silenceElapse_fc (r : KuroState) (i : Nat) (hp : r.pendingTimers = [i])
    (hc : r.capturing = true) (hl : jsTrim r.latestText ≠ "") (hf : r.finalizeCount = 0) :
    (silenceElapse r).finalizeCount = 1 := by
  unfold silenceElapse
  rw [hp]
  show (step (timerFireH r i) Ev.ended).finalizeCount = 1
  have h1 : timerFireH r i = recStop { r with pendingTimers := [] } := by
    unfold timerFireH
    rw [hp]
    simp
  have h2 : recStop { r with pendingTimers := [] }
      = { r with pendingTimers := [], capturing := false, pendingOnend := true } := by
    unfold recStop
    rw [if_pos (show ({ r with pendingTimers := [] } : KuroState).capturing = true from hc)]
  rw [h1, h2]
  show (onendH { r with
                 pendingTimers := [],
                 capturing := false,
                 pendingOnend := false }).finalizeCount = 1
  rw [onendH_fc]
  rw [if_neg (show ¬jsTrim ({ r with
                              pendingTimers := [],
                              capturing := false,
                              pendingOnend := false } : KuroState).latestText = "" from hl)]
  show r.finalizeCount + 1 = 1
  rw [hf]

theorem resultsJ : ∀ (rest : List String) (s : KuroState),
    s.capturing = true → s.pendingOnend = false → s.finalizeCount = 0 →
    (∃ i, s.pendingTimers = [i] ∧ s.silenceTimerRef = some i) →
    jsTrim s.latestText ≠ "" → (∀ t ∈ rest, jsTrim t ≠ "") →
    (run s (rest.map Ev.result)).capturing = true ∧
    (run s (rest.map Ev.result)).pendingOnend = false ∧
    (run s (rest.map Ev.result)).finalizeCount = 0 ∧
    (∃ i, (run s (rest.map Ev.result)).pendingTimers = [i] ∧
      (run s (rest.map Ev.result)).silenceTimerRef = some i) ∧
    jsTrim (run s (rest.map Ev.result)).latestText ≠ "" := by
  intro rest
  induction rest with
  | nil => exact fun s h1 h2 h3 h4 h5 _ => ⟨h1, h2, h3, h4, h5⟩
  | cons t rest ih =>
    intro s h1 h2 h3 h4 h5 h6
    have hs : step s (Ev.result t) = onresultH s t := by
      show (if s.capturing = true then onresultH s t else s) = onresultH s t
      rw [if_pos h1]
    have hrun : run s ((t :: rest).map Ev.result) = run (onresultH s t) (rest.map Ev.result) := by
      show run (step s (Ev.result t)) (rest.map Ev.result)
        = run (onresultH s t) (rest.map Ev.result)
      rw [hs]
    rw [hrun]
    apply ih
    · exact h1
    · exact h2
    · exact h3
    · rcases h4 with ⟨i, hp, hr⟩
      refine ⟨s.nextTimerId, ?_, rfl⟩
      show clearPending s.silenceTimerRef s.pendingTimers ++ [s.nextTimerId] = [s.nextTimerId]
      rw [clearPending_nil s.silenceTimerRef s.pendingTimers (Or.inr ⟨i, hp, hr⟩)]
      rfl
    · show jsTrim (jsTrim t) ≠ ""
      rw [jsTrim_idem]
      exact h6 t (List.mem_cons_self t rest)
    · exact fun u hu => h6 u (List.mem_cons_of_mem t hu)

/-- C2: (a) in every reachable state of the controller at most one silence
timer is pending — each interim-result event disarms the previously armed
timeout before arming a fresh one (b), so (c) a session of `start()`
followed by N interim events and one silence period produces exactly one
end-of-capture finalization, not N. -/
theorem silence_timer_at_most_one (evs : List Ev) (ts : List String)
    (s : KuroState) (i : Nat) (t : String) :
    (run initState evs).pendingTimers.length ≤ 1 ∧
    (s.pendingTimers = [i] → s.silenceTimerRef = some i →
      (onresultH s t).pendingTimers = [s.nextTimerId] ∧
      (onresultH s t).silenceTimerRef = some s.nextTimerId) ∧
    (ts ≠ [] → (∀ u ∈ ts, jsTrim u ≠ "") →
      (silenceElapse (listenRun ts)).finalizeCount = 1) := by
  refine ⟨?_, ?_, ?_⟩
  · rcases run_timerOk evs initState (Or.inl rfl) with h | ⟨j, hp, _⟩
    · rw [h]
      decide
    · rw [hp]
      simp
  · intro hp hr
    constructor
    · show clearPending s.silenceTimerRef s.pendingTimers ++ [s.nextTimerId] = [s.nextTimerId]
      rw [clearPending_nil s.silenceTimerRef s.pendingTimers (Or.inr ⟨i, hp, hr⟩)]
      rfl
    · rfl
  · intro hne hall
    obtain ⟨t0, rest, rfl⟩ := List.exists_cons_of_ne_nil hne
    have heq : listenRun (t0 :: rest)
        = run (onresultH (startOp initState) t0) (rest.map Ev.result) := rfl
    rw [heq]
    have hJ := resultsJ rest (onresultH (startOp initState) t0) rfl rfl rfl
      ⟨0, rfl, rfl⟩
      (by show jsTrim (jsTrim t0) ≠ ""
          rw [jsTrim_idem]
          exact hall t0 (List.mem_cons_self t0 rest))
      (fun u hu => hall u (List.mem_cons_of_mem t0 hu))
    obtain ⟨hc, _, hf, ⟨j, hp, _⟩, hl⟩ := hJ
    exact silenceElapse_fc _ j hp hc hl hf

theorem silence_timer_at_most_one_witness :
    (silenceElapse (listenRun ["turn", "turn the volume"])).finalizeCount = 1 ∧
    (onresultH { initState with pendingTimers := [0], silenceTimerRef := some 0 }
      "hi").pendingTimers = [0] :=
  ⟨(silence_timer_at_most_one [] ["turn", "turn the volume"] initState 0 "x").2.2
     (by decide) (by decide),
   ((silence_timer_at_most_one [] ["turn", "turn the volume"]
      { initState with pendingTimers := [0], silenceTimerRef := some 0 } 0 "hi").2.1
      rfl rfl).1⟩
